import Mathlib

/-!
Verification development for the codegraph-core index and hierarchical
query/traversal engine.  The repository ships the HTTP test scripts and the
Python fixture projects; the query engine itself (project index, call graph
engine, tree builder, snippet extractor, query service) is modelled from the
specification where noted, while everything taken from a shipped source file
is embedded directly from that file.
-/

namespace CodeGraph

/-- Modelled from the spec: the Call Graph Engine's adjacency view (spec 4.2).
The engine's own sources are not shipped (only its HTTP test scripts and the
fixture projects are), so a call graph is abstracted by its
`callees_of(function_id) -> ordered sequence of function_id` lookup, ordered
by call-site source order. -/
structure CallGraph where
  callees : Nat → List Nat

/-- Transient tree node produced by `expand` (spec 3: Tree Node, spec 4.2:
tree-shaped traversal result): a function id together with the ordered
children. -/
inductive CGTree where
  | mk (id : Nat) (children : List CGTree)

/-- The function id stored at the root of a traversal tree node. -/
def CGTree.id : CGTree → Nat
  | .mk i _ => i

/-- The ordered children of a traversal tree node. -/
def CGTree.children : CGTree → List CGTree
  | .mk _ cs => cs

/-- Modelled from the spec: the recursive worker of `expand(root_id,
max_depth)` (spec 4.2).  `path` is the visited set scoped to the current path
from the root to this node (nearest ancestor first); `fuel` is the number of
call edges the traversal may still descend.  A node whose id already appears
among its own ancestors is emitted once with no children (the ancestor cut);
the depth bound alone also stops expansion once `fuel` runs out. -/
def expandNode (g : CallGraph) : Nat → List Nat → Nat → CGTree
  | i, _, 0 => .mk i []
  | i, path, fuel + 1 =>
    if i ∈ path then .mk i []
    else .mk i ((g.callees i).map (fun c => expandNode g c (i :: path) fuel))

/-- Modelled from the spec: `expand(root_id, max_depth)` (spec 4.2), the
depth-limited, cycle-safe expansion with the root at depth 0. -/
def expand (g : CallGraph) (rootId maxDepth : Nat) : CGTree :=
  expandNode g rootId [] maxDepth

theorem expandNode_zero (g : CallGraph) (i : Nat) (path : List Nat) :
    expandNode g i path 0 = .mk i [] := rfl

theorem expandNode_succ (g : CallGraph) (i : Nat) (path : List Nat) (fuel : Nat) :
    expandNode g i path (fuel + 1) =
      if i ∈ path then .mk i []
      else .mk i ((g.callees i).map (fun c => expandNode g c (i :: path) fuel)) := rfl

/-- Depth of a traversal tree: the number of call edges on the longest path
from the root down to a leaf (a childless root has depth 0). -/
def CGTree.depth : CGTree → Nat
  | .mk _ [] => 0
  | .mk i (c :: cs) => max (CGTree.depth c + 1) (CGTree.depth (.mk i cs))

/-- `OccursAt t k n`: the function id `n` labels some node of tree `t` that
sits `k` call edges below the root of `t`. -/
inductive OccursAt : CGTree → Nat → Nat → Prop
  | root (t : CGTree) : OccursAt t 0 t.id
  | child {t c : CGTree} {k n : Nat} :
      c ∈ t.children → OccursAt c k n → OccursAt t (k + 1) n

/-- `AncPath t p s`: `s` is a subtree of `t` and `p` lists the ids of the
strict ancestors of `s` inside `t`, nearest ancestor first. -/
inductive AncPath : CGTree → List Nat → CGTree → Prop
  | here (t : CGTree) : AncPath t [] t
  | there {t c s : CGTree} {p : List Nat} :
      c ∈ t.children → AncPath c p s → AncPath t (p ++ [t.id]) s

/-- `reachableWithin g a b n`: function `b` is reachable from function `a`
along at most `n` call edges of graph `g`. -/
def reachableWithin (g : CallGraph) : Nat → Nat → Nat → Prop
  | a, b, 0 => a = b
  | a, b, n + 1 => a = b ∨ ∃ c ∈ g.callees a, reachableWithin g c b n

theorem reachableWithin_zero (g : CallGraph) (a b : Nat) :
    reachableWithin g a b 0 = (a = b) := rfl

theorem reachableWithin_succ_eq (g : CallGraph) (a b n : Nat) :
    reachableWithin g a b (n + 1) =
      (a = b ∨ ∃ c ∈ g.callees a, reachableWithin g c b n) := rfl

theorem reachableWithin_succ (g : CallGraph) :
    ∀ (n a b : Nat), reachableWithin g a b n → reachableWithin g a b (n + 1)
  | 0, _, _, h => Or.inl h
  | _ + 1, _, _, Or.inl h => Or.inl h
  | n + 1, _, b, Or.inr ⟨c, hc, h⟩ => Or.inr ⟨c, hc, reachableWithin_succ g n c b h⟩

theorem reachableWithin_mono (g : CallGraph) {a b m n : Nat} (hmn : m ≤ n)
    (h : reachableWithin g a b m) : reachableWithin g a b n := by
  induction hmn with
  | refl => exact h
  | step _ ih => exact reachableWithin_succ g _ a b ih

theorem occursAt_expandNode (g : CallGraph) :
    ∀ (fuel i : Nat) (path : List Nat) (k n : Nat),
      OccursAt (expandNode g i path fuel) k n → k ≤ fuel ∧ reachableWithin g i n k := by
  intro fuel
  induction fuel with
  | zero =>
    intro i path k n h
    rw [expandNode_zero] at h
    cases h with
    | root => exact ⟨Nat.le_refl 0, rfl⟩
    | child hc _ => simp [CGTree.children] at hc
  | succ m ih =>
    intro i path k n h
    rw [expandNode_succ] at h
    by_cases hp : i ∈ path
    · rw [if_pos hp] at h
      cases h with
      | root => exact ⟨Nat.zero_le _, rfl⟩
      | child hc _ => simp [CGTree.children] at hc
    · rw [if_neg hp] at h
      cases h with
      | root => exact ⟨Nat.zero_le _, rfl⟩
      | child hc hocc =>
        simp only [CGTree.children, List.mem_map] at hc
        obtain ⟨c0, hc0, rfl⟩ := hc
        obtain ⟨hk, hr⟩ := ih c0 (i :: path) _ n hocc
        exact ⟨Nat.succ_le_succ hk, Or.inr ⟨c0, hc0, hr⟩⟩

theorem ancPath_expandNode_cut (g : CallGraph) :
    ∀ (fuel i : Nat) (path0 p : List Nat) (s : CGTree),
      AncPath (expandNode g i path0 fuel) p s → s.id ∈ p ++ path0 →
      s.children = [] := by
  intro fuel
  induction fuel with
  | zero =>
    intro i path0 p s h _
    rw [expandNode_zero] at h
    cases h with
    | here => rfl
    | there hc _ => simp [CGTree.children] at hc
  | succ m ih =>
    intro i path0 p s h hmem
    rw [expandNode_succ] at h
    by_cases hp : i ∈ path0
    · rw [if_pos hp] at h
      cases h with
      | here => rfl
      | there hc _ => simp [CGTree.children] at hc
    · rw [if_neg hp] at h
      cases h with
      | here =>
        exfalso
        apply hp
        simpa [CGTree.id] using hmem
      | there hc hanc =>
        simp only [CGTree.children, List.mem_map] at hc
        obtain ⟨c0, hc0, rfl⟩ := hc
        apply ih c0 (i :: path0) _ s hanc
        simpa [CGTree.id, List.append_assoc] using hmem

/-- Call graph extracted from the fixture `MathUtils.fibonacci`
(tests/test_repos/simple_python_project/math_utils.py, lines 41-47): the body
`return self.fibonacci(n - 1) + self.fibonacci(n - 2)` contains two call
sites of `fibonacci` itself, in that source order.  Function id 0 stands for
`fibonacci`. -/
def fibGraph : CallGraph :=
  ⟨fun i => if i = 0 then [0, 0] else []⟩

/-- A mutually recursive call graph used to exhibit the path-scoped (rather
than global) visited policy: 0 calls 1 and 2, 1 calls 2, 2 calls 1. -/
def mutualGraph : CallGraph :=
  ⟨fun i => if i = 0 then [1, 2] else if i = 1 then [2] else if i = 2 then [1] else []⟩

theorem expand_mutualGraph_eval : expand mutualGraph 0 4 =
    CGTree.mk 0 [CGTree.mk 1 [CGTree.mk 2 [CGTree.mk 1 []]],
                 CGTree.mk 2 [CGTree.mk 1 [CGTree.mk 2 []]]] := rfl

theorem ancPath_cut_occurrence :
    AncPath (expand mutualGraph 0 4) [2, 1, 0] (CGTree.mk 1 []) := by
  have s2 : AncPath (CGTree.mk 2 [CGTree.mk 1 []]) ([] ++ [2]) (CGTree.mk 1 []) :=
    AncPath.there (c := CGTree.mk 1 []) (by simp [CGTree.children]) (AncPath.here _)
  have s3 : AncPath (CGTree.mk 1 [CGTree.mk 2 [CGTree.mk 1 []]]) ([2] ++ [1]) (CGTree.mk 1 []) :=
    AncPath.there (c := CGTree.mk 2 [CGTree.mk 1 []]) (by simp [CGTree.children]) s2
  have s4 : AncPath (CGTree.mk 0 [CGTree.mk 1 [CGTree.mk 2 [CGTree.mk 1 []]],
      CGTree.mk 2 [CGTree.mk 1 [CGTree.mk 2 []]]]) ([2, 1] ++ [0]) (CGTree.mk 1 []) :=
    AncPath.there (c := CGTree.mk 1 [CGTree.mk 2 [CGTree.mk 1 []]]) (by simp [CGTree.children]) s3
  rw [expand_mutualGraph_eval]
  exact s4

theorem ancPath_expanded_occurrence :
    AncPath (expand mutualGraph 0 4) [2, 0] (CGTree.mk 1 [CGTree.mk 2 []]) := by
  have s2 : AncPath (CGTree.mk 2 [CGTree.mk 1 [CGTree.mk 2 []]]) ([] ++ [2])
      (CGTree.mk 1 [CGTree.mk 2 []]) :=
    AncPath.there (c := CGTree.mk 1 [CGTree.mk 2 []]) (by simp [CGTree.children]) (AncPath.here _)
  have s3 : AncPath (CGTree.mk 0 [CGTree.mk 1 [CGTree.mk 2 [CGTree.mk 1 []]],
      CGTree.mk 2 [CGTree.mk 1 [CGTree.mk 2 []]]]) ([2] ++ [0])
      (CGTree.mk 1 [CGTree.mk 2 []]) :=
    AncPath.there (c := CGTree.mk 2 [CGTree.mk 1 [CGTree.mk 2 []]]) (by simp [CGTree.children]) s2
  rw [expand_mutualGraph_eval]
  exact s3

/-- A two-node acyclic call graph (0 calls 1) used as a concrete instance of
the depth/reachability bound. -/
def lineGraph : CallGraph :=
  ⟨fun i => if i = 0 then [1] else []⟩

/-- C1: for the fixture `fibonacci`, which calls itself twice per invocation,
the claim says `expand("fibonacci", 3)` yields a tree of depth exactly 3.
Under the spec's own cycle policy (the ancestor cut of spec 4.2) both child
occurrences of `fibonacci` are cut immediately below the root, so the tree
has depth 1, not 3. -/
theorem expand_fibonacci_depth_counterexample :
    CGTree.depth (expand fibGraph 0 3) ≠ 3 := by
  have h : expand fibGraph 0 3 = CGTree.mk 0 [CGTree.mk 0 [], CGTree.mk 0 []] := rfl
  rw [h]
  simp [CGTree.depth]

/-- C1 (amended): `expand("fibonacci", 3)` terminates and yields the tree of
depth exactly 1 whose root `fibonacci` has its two repeated occurrences of
`fibonacci` each cut at the ancestor boundary (emitted once, with no
children) rather than expanded indefinitely. -/
theorem expand_fibonacci_amended :
    expand fibGraph 0 3 = CGTree.mk 0 [CGTree.mk 0 [], CGTree.mk 0 []] ∧
    CGTree.depth (expand fibGraph 0 3) = 1 := by
  constructor
  · rfl
  · have h : expand fibGraph 0 3 = CGTree.mk 0 [CGTree.mk 0 [], CGTree.mk 0 []] := rfl
    rw [h]
    simp [CGTree.depth]

/-- C2: for every root `r`, depth `d` and node occurring in `expand(r, d)`,
the node sits at depth at most `d` (root at depth 0) and is reachable from
`r` along at most `d` call edges. -/
theorem expand_depth_bound_and_reachable (g : CallGraph) (r d k n : Nat)
    (h : OccursAt (expand g r d) k n) :
    k ≤ d ∧ reachableWithin g r n d := by
  obtain ⟨hk, hr⟩ := occursAt_expandNode g d r [] k n h
  exact ⟨hk, reachableWithin_mono g hk hr⟩

theorem expand_depth_bound_and_reachable_witness :
    1 ≤ 2 ∧ reachableWithin lineGraph 0 1 2 :=
  expand_depth_bound_and_reachable lineGraph 0 2 1 1
    (by
      have h : expand lineGraph 0 2 = CGTree.mk 0 [CGTree.mk 1 []] := rfl
      rw [h]
      exact OccursAt.child (by simp [CGTree.children]) (OccursAt.root (CGTree.mk 1 [])))

/-- C3: the visited set of an expansion is scoped to the current path from
root to node, not global.  First conjunct: in any `expand(r, d)`, a node
whose id already appears among its own ancestors is emitted with no children
(its children are not expanded at that occurrence).  Remaining conjuncts: in
the concrete mutually recursive graph, function 1 occurs once as such a cut
(childless although it has callees) under one branch, while the same
function 1 appears under the sibling branch, reached via a different path,
fully expanded into its callees. -/
theorem expand_path_scoped_visited :
    (∀ (g : CallGraph) (r d : Nat) (p : List Nat) (s : CGTree),
        AncPath (expand g r d) p s → s.id ∈ p → s.children = []) ∧
    (AncPath (expand mutualGraph 0 4) [2, 1, 0] (CGTree.mk 1 []) ∧
     (CGTree.mk 1 []).id ∈ [2, 1, 0] ∧
     mutualGraph.callees 1 ≠ [] ∧
     (CGTree.mk 1 []).children = [] ∧
     AncPath (expand mutualGraph 0 4) [2, 0] (CGTree.mk 1 [CGTree.mk 2 []]) ∧
     (CGTree.mk 1 [CGTree.mk 2 []]).id ∉ [2, 0] ∧
     (CGTree.mk 1 [CGTree.mk 2 []]).children =
       (mutualGraph.callees 1).map (fun c => expandNode mutualGraph c [1, 2, 0] 1)) := by
  refine ⟨?_, ancPath_cut_occurrence, by simp [CGTree.id], by simp [mutualGraph],
    rfl, ancPath_expanded_occurrence, by simp [CGTree.id], rfl⟩
  intro g r d p s h hmem
  apply ancPath_expandNode_cut g d r [] p s h
  simpa using hmem

theorem expand_path_scoped_visited_witness :
    (CGTree.mk 1 []).children = [] :=
  expand_path_scoped_visited.1 mutualGraph 0 4 [2, 1, 0] (CGTree.mk 1 [])
    ancPath_cut_occurrence (by simp [CGTree.id])

end CodeGraph

namespace MathUtils

/-- Embedded from tests/test_repos/simple_python_project/math_utils.py,
lines 14-16: `_add_to_total(current_total, new_number)` returns their sum.
Python numbers are modelled as rationals. -/
def _add_to_total (current_total new_number : ℚ) : ℚ :=
  current_total + new_number

/-- Embedded from math_utils.py, lines 4-12: `calculate_sum` returns 0 for a
falsy (empty) list, otherwise runs `total = self._add_to_total(total, num)`
over the list starting from `total = 0`. -/
def calculate_sum (numbers : List ℚ) : ℚ :=
  if numbers = [] then 0
  else numbers.foldl _add_to_total 0

/-- Embedded from math_utils.py, lines 27-31: `_divide_numbers` raises
`ValueError("Cannot divide by zero")` when the denominator is 0, and returns
the quotient otherwise; the raise is modelled as `Except.error`. -/
def _divide_numbers (numerator denominator : ℚ) : Except String ℚ :=
  if denominator = 0 then Except.error "Cannot divide by zero"
  else Except.ok (numerator / denominator)

/-- Embedded from math_utils.py, lines 18-25: `calculate_average` returns 0
for a falsy (empty) list, and otherwise divides `calculate_sum(numbers)` by
`len(numbers)` through `_divide_numbers`. -/
def calculate_average (numbers : List ℚ) : Except String ℚ :=
  if numbers = [] then Except.ok 0
  else _divide_numbers (calculate_sum numbers) (numbers.length : ℚ)

/-- C8: `calculate_average` never raises: the division-by-zero branch of
`_divide_numbers` is unreachable from it, because the empty-list guard
returns 0 before any division and otherwise the denominator `len(numbers)`
is positive; on every non-empty list the result is
`calculate_sum(numbers) / len(numbers)`. -/
theorem calculate_average_never_raises (numbers : List ℚ) :
    (∃ v, calculate_average numbers = Except.ok v) ∧
    (numbers ≠ [] →
      calculate_average numbers =
        Except.ok (calculate_sum numbers / (numbers.length : ℚ))) := by
  by_cases hne : numbers = []
  · subst hne
    exact ⟨⟨0, rfl⟩, fun h => absurd rfl h⟩
  · have hlen : (numbers.length : ℚ) ≠ 0 := by
      have : numbers.length ≠ 0 := by
        simpa [List.length_eq_zero] using hne
      exact_mod_cast this
    have hval : calculate_average numbers =
        Except.ok (calculate_sum numbers / (numbers.length : ℚ)) := by
      rw [calculate_average, if_neg hne, _divide_numbers, if_neg hlen]
    exact ⟨⟨_, hval⟩, fun _ => hval⟩

theorem calculate_average_never_raises_witness :
    (∃ v, calculate_average [1, 2, 3] = Except.ok v) ∧
    calculate_average [1, 2, 3] =
      Except.ok (calculate_sum [1, 2, 3] / (([1, 2, 3] : List ℚ).length : ℚ)) :=
  ⟨(calculate_average_never_raises [1, 2, 3]).1,
   (calculate_average_never_raises [1, 2, 3]).2 (by simp)⟩

end MathUtils

namespace SimpleProject

/-- Embedded from tests/test_repos/simple_python_project/main.py, lines 7-23:
the callee names at the call sites inside the body of `main`, in source
order (`DataProcessor()`, `processor.process_data(...)`, `print(...)`,
`MathUtils()`, `math_utils.calculate_sum(...)`, `print(...)`,
`StringUtils()`, `string_utils.format_output(...)`, `print(...)`). -/
def mainBodyCallees : List String :=
  ["DataProcessor", "process_data", "print",
   "MathUtils", "calculate_sum", "print",
   "StringUtils", "format_output", "print"]

/-- The module-level functions defined in main.py: `main` (lines 7-23) and
`helper_function` (lines 25-27, docstring "Helper function called by
main"). -/
def mainModuleFunctions : List String :=
  ["main", "helper_function"]

/-- C4: the claim (and `helper_function`'s own docstring) says `main` calls
`helper_function` exactly once; in the shipped fixture `main`'s body contains
no call to `helper_function` at all, although `helper_function` is defined in
the same module.  Hence a depth-1 hierarchical query rooted at `main` cannot
produce `helper_function` as a child. -/
theorem main_never_calls_helper_function :
    mainBodyCallees.count "helper_function" = 0 ∧
    "helper_function" ∈ mainModuleFunctions := by
  constructor
  · rfl
  · simp [mainModuleFunctions]

end SimpleProject

namespace CodeGraph

/-- Function record of one generation (spec 3): id, name, qualified
disambiguator (file_path + line_start), and the line extent. -/
structure FunctionRec where
  fid : Nat
  name : String
  file_path : String
  line_start : Nat
  line_end : Nat

/-- Result of `get_snippet` (spec 4.4): the sliced lines together with the
clamped bounds actually used. -/
structure SnippetResult where
  code_snippet : List String
  line_start : Nat
  line_end : Nat

/-- Modelled from the spec: the Snippet Extractor's slicing (spec 4.4); the
extractor itself is not among the shipped sources.  Given the resolved
Function and the file's lines (0-indexed), the slice is
`[line_start - context_lines, line_end + context_lines]` clamped to
`[0, file_length - 1]`; truncated subtraction on `Nat` performs the clamp at
0.  The `include_context` flag enables the context window (all observed
callers pass it as true). -/
def get_snippet (lines : List String) (fn : FunctionRec) (include_context : Bool)
    (context_lines : Nat) : SnippetResult :=
  let n := if include_context then context_lines else 0
  let s := fn.line_start - n
  let e := min (fn.line_end + n) (lines.length - 1)
  ⟨(lines.drop s).take (e + 1 - s), s, e⟩

/-- C6: for a resolved function spanning `line_end - line_start + 1` lines,
`get_snippet` with `context_lines = N` returns the file slice
`[line_start - N, line_end + N]` clamped to `[0, file_length - 1]` together
with the clamped bounds actually used; far from the file boundaries the
snippet has exactly `L + 2N` lines, and strictly fewer when clamped at line
0 or at end-of-file. -/
theorem get_snippet_window (lines : List String) (fn : FunctionRec) (N : Nat)
    (hse : fn.line_start ≤ fn.line_end) (hlen : fn.line_end < lines.length) :
    (get_snippet lines fn true N).line_start = fn.line_start - N ∧
    (get_snippet lines fn true N).line_end = min (fn.line_end + N) (lines.length - 1) ∧
    (get_snippet lines fn true N).code_snippet =
      (lines.drop (fn.line_start - N)).take
        (min (fn.line_end + N) (lines.length - 1) + 1 - (fn.line_start - N)) ∧
    (get_snippet lines fn true N).code_snippet.length =
      min (fn.line_end + N) (lines.length - 1) + 1 - (fn.line_start - N) ∧
    (N ≤ fn.line_start → fn.line_end + N ≤ lines.length - 1 →
      (get_snippet lines fn true N).code_snippet.length =
        fn.line_end - fn.line_start + 1 + 2 * N) ∧
    (fn.line_start < N →
      (get_snippet lines fn true N).code_snippet.length <
        fn.line_end - fn.line_start + 1 + 2 * N) ∧
    (lines.length - 1 < fn.line_end + N →
      (get_snippet lines fn true N).code_snippet.length <
        fn.line_end - fn.line_start + 1 + 2 * N) := by
  have hcard : (get_snippet lines fn true N).code_snippet.length =
      min (fn.line_end + N) (lines.length - 1) + 1 - (fn.line_start - N) := by
    simp only [get_snippet, if_pos, List.length_take, List.length_drop]
    omega
  refine ⟨rfl, rfl, rfl, hcard, ?_, ?_, ?_⟩
  · intro h1 h2
    rw [hcard]
    omega
  · intro h1
    rw [hcard]
    omega
  · intro h1
    rw [hcard]
    omega

/-- A ten-line file used to instantiate the snippet window bound. -/
def demoLines : List String :=
  ["l0", "l1", "l2", "l3", "l4", "l5", "l6", "l7", "l8", "l9"]

/-- A resolved function spanning lines 4-5 of `demoLines`. -/
def demoFn : FunctionRec :=
  ⟨0, "f", "demo.py", 4, 5⟩

theorem get_snippet_window_witness :
    (get_snippet demoLines demoFn true 2).code_snippet.length =
      demoFn.line_end - demoFn.line_start + 1 + 2 * 2 :=
  (get_snippet_window demoLines demoFn 2 (by decide) (by decide)).2.2.2.2.1
    (by decide) (by decide)

/-- Modelled from the spec: one published generation of the Project Index
(spec 3 and 4.1): project identity, the Functions, the call-edge adjacency,
the global relation count and the file paths of the generation. -/
structure Generation where
  project_id : String
  functions : List FunctionRec
  graph : CallGraph
  total_relations : Nat
  file_paths : List String

/-- `a` precedes `b` under the deterministic disambiguation rule of spec 4.3:
lowest file_path first, then lowest line_start. -/
def betterMatch (a b : FunctionRec) : Bool :=
  if a.file_path < b.file_path then true
  else if b.file_path < a.file_path then false
  else a.line_start < b.line_start

/-- Modelled from the spec: resolve a function name to a Function record
(spec 4.3); among all Functions with the requested name the deterministic
representative (lowest file_path, then lowest line_start) is selected, and
`none` is returned when there is no match. -/
def resolveFunction (gen : Generation) (fname : String) : Option FunctionRec :=
  (gen.functions.filter (fun f => f.name = fname)).foldl
    (fun acc f =>
      match acc with
      | none => some f
      | some b => if betterMatch f b then some f else some b) none

/-- Insert a Function into a list sorted by line_start. -/
def insertByLineStart (f : FunctionRec) : List FunctionRec → List FunctionRec
  | [] => [f]
  | g :: rest =>
    if f.line_start ≤ g.line_start then f :: g :: rest
    else g :: insertByLineStart f rest

/-- Modelled from the spec: `functions_in_file(file_path)`, ordered by
line_start (spec 4.2). -/
def functions_in_file (gen : Generation) (path : String) : List FunctionRec :=
  (gen.functions.filter (fun f => f.file_path = path)).foldr insertByLineStart []

/-- Modelled from the spec: the error taxonomy of spec 7 (the build-time and
concurrency errors are out of reach of a single read request). -/
inductive QueryError where
  | notFound (msg : String)
  | invalidArgument (msg : String)
  | ioError (msg : String)

/-- Rendering of an error into the envelope's error string. -/
def QueryError.render : QueryError → String
  | .notFound m => "NotFound: " ++ m
  | .invalidArgument m => "InvalidArgument: " ++ m
  | .ioError m => "IOError: " ++ m

/-- Modelled from the spec: the request shapes of spec 6 that reach the
query service. -/
inductive QueryRequest where
  | health
  | build_graph (project_dir : String) (force_rebuild : Bool) (exclude_patterns : List String)
  | query_hierarchical_graph (root_function : Option String) (max_depth : Nat)
  | query_call_graph (filepath : String) (function_name : Option String) (max_depth : Nat)
  | query_code_snippet (filepath : String) (function_name : String)
      (include_context : Bool) (context_lines : Nat)
  | query_code_skeleton (filepaths : List String)

/-- Modelled from the spec: the `data` payloads of the responses of spec 6. -/
inductive ResponseData where
  | healthData
  | buildData (project_id : String) (total_functions total_relations : Nat)
  | hierarchicalData (project_id : String) (root_function : Option String)
      (total_functions total_relations max_depth : Nat) (tree_structure : CGTree)
  | callGraphData (functions : List FunctionRec) (edges : List (Nat × Nat))
  | snippetData (r : SnippetResult)
  | skeletonData (skeletons : List (String × Option String))

/-- The uniform response envelope of spec 4.5 and 6:
`{success: bool, data | error}`. -/
structure Envelope where
  success : Bool
  data : Option ResponseData
  error : Option String

/-- Modelled from the spec: the query service state.  The generation is the
currently published index; `fileLines` is the external file-reading
collaborator (`none` = unreadable path); `skeletonize` is the external
declaration-only renderer (`none` = unparseable content); `buildOutcome` is
the Project Index build collaboration for a root dir (`none` = zero files
could be processed, which fails the build). -/
structure ServiceState where
  generation : Generation
  fileLines : String → Option (List String)
  skeletonize : List String → Option String
  buildOutcome : String → Option Generation

/-- The fixed ceiling that `max_depth` is clamped to (spec 4.5). -/
def maxDepthCeiling : Nat := 10

/-- Clamp a requested depth to the fixed ceiling (spec 4.5). -/
def clampDepth (d : Nat) : Nat := min d maxDepthCeiling

/-- Call edges leaving the given functions, in source order. -/
def edgesFrom (g : CallGraph) (fns : List FunctionRec) : List (Nat × Nat) :=
  fns.flatMap (fun f => (g.callees f.fid).map (fun c => (f.fid, c)))

/-- Modelled from the spec: dispatch of a validated request to components
4.1-4.4 (spec 4.5), producing either a payload or a query error. -/
def handleQuery (st : ServiceState) : QueryRequest → Except QueryError ResponseData
  | .health => .ok .healthData
  | .build_graph dir _ _ =>
    match st.buildOutcome dir with
    | none => .error (.ioError ("build failed, no file could be processed under " ++ dir))
    | some gen => .ok (.buildData gen.project_id gen.functions.length gen.total_relations)
  | .query_hierarchical_graph root d =>
    match root with
    | some fname =>
      match resolveFunction st.generation fname with
      | none => .error (.notFound ("root function " ++ fname))
      | some f =>
        .ok (.hierarchicalData st.generation.project_id (some fname)
          st.generation.functions.length st.generation.total_relations
          (clampDepth d) (expand st.generation.graph f.fid (clampDepth d)))
    | none =>
      .ok (.hierarchicalData st.generation.project_id none
        st.generation.functions.length st.generation.total_relations
        (clampDepth d) (CGTree.mk 0 []))
  | .query_call_graph fp _ _ =>
    .ok (.callGraphData (functions_in_file st.generation fp)
      (edgesFrom st.generation.graph (functions_in_file st.generation fp)))
  | .query_code_snippet fp fname inc ctx =>
    match resolveFunction st.generation fname with
    | none => .error (.notFound ("function " ++ fname ++ " in " ++ fp))
    | some f =>
      match st.fileLines fp with
      | none => .error (.ioError ("cannot read " ++ fp))
      | some lines => .ok (.snippetData (get_snippet lines f inc ctx))
  | .query_code_skeleton fps =>
    if fps = [] then .error (.invalidArgument "filepaths list must be non-empty")
    else .ok (.skeletonData (fps.map (fun fp => (fp, (st.fileLines fp).bind st.skeletonize))))

/-- Wrap a dispatch result in the uniform envelope (spec 4.5). -/
def wrapEnvelope : Except QueryError ResponseData → Envelope
  | .ok d => ⟨true, some d, none⟩
  | .error e => ⟨false, none, some e.render⟩

/-- Modelled from the spec: the query service (spec 4.5): validate, dispatch,
envelope. -/
def serve (st : ServiceState) (req : QueryRequest) : Envelope :=
  wrapEnvelope (handleQuery st req)

/-- C5: every response the query service produces, for every request
including health, is an envelope with a boolean success flag carrying a data
field on success or an error field on failure. -/
theorem serve_always_enveloped (st : ServiceState) (req : QueryRequest) :
    ((serve st req).success = true ∧ ((serve st req).data).isSome = true ∧
      (serve st req).error = none) ∨
    ((serve st req).success = false ∧ (serve st req).data = none ∧
      ((serve st req).error).isSome = true) := by
  cases hq : handleQuery st req with
  | ok d => exact Or.inl (by simp [serve, wrapEnvelope, hq])
  | error e => exact Or.inr (by simp [serve, wrapEnvelope, hq])

end CodeGraph

namespace Scripts

/-- JSON tree node consumed by the visualization scripts
(scripts/test_hierarchical_api.py and scripts/demo_hierarchical_output.py):
the fields those scripts access, with `none` for an absent key. -/
inductive TreeNode where
  | mk (name : String) (function_id : Option Nat) (file_path : Option String)
       (line_start : Option Nat) (line_end : Option Nat) (children : List TreeNode)

/-- `node['name']`. -/
def TreeNode.name : TreeNode → String
  | .mk v _ _ _ _ _ => v

/-- `node.get('function_id')`. -/
def TreeNode.function_id : TreeNode → Option Nat
  | .mk _ v _ _ _ _ => v

/-- `node.get('file_path')`. -/
def TreeNode.file_path : TreeNode → Option String
  | .mk _ _ v _ _ _ => v

/-- `node.get('line_start')`. -/
def TreeNode.line_start : TreeNode → Option Nat
  | .mk _ _ _ v _ _ => v

/-- `node.get('line_end')`. -/
def TreeNode.line_end : TreeNode → Option Nat
  | .mk _ _ _ _ v _ => v

/-- `node.get('children', [])`. -/
def TreeNode.children : TreeNode → List TreeNode
  | .mk _ _ _ _ _ cs => cs

/-- Python truthiness of an optional integer field: an absent key and 0 are
falsy. -/
def truthyNat : Option Nat → Bool
  | none => false
  | some n => n != 0

/-- Python truthiness of an optional string field: an absent key and the
empty string are falsy. -/
def truthyStr : Option String → Bool
  | none => false
  | some s => s != ""

/-- Python string repetition `s * n`. -/
def strRepeat (s : String) (n : Nat) : String :=
  String.join (List.replicate n s)

mutual
/-- Embedded from scripts/test_hierarchical_api.py, lines 81-103
(`print_tree_structure(node, depth)`), with the printed output modelled as
the list of printed lines: a function node (truthy `function_id`) prints its
name tagged `[function]` plus optional file and line info, any other node
prints just its name; then the children are printed at depth + 1 through a
loop whose two branches of the `i == len - 1` conditional are identical. -/
def print_tree_structure : TreeNode → Nat → List String
  | .mk nm fid fp ls le cs, depth =>
    (if truthyNat fid then
      [strRepeat "  " depth ++ "├── " ++ nm ++ " [function]"]
      ++ (if truthyStr fp then
            [strRepeat "  " depth ++ "│   📁 " ++ fp.getD ""] else [])
      ++ (if truthyNat ls && truthyNat le then
            [strRepeat "  " depth ++ "│   📍 行 " ++ toString (ls.getD 0) ++ "-"
              ++ toString (le.getD 0)]
          else [])
    else [strRepeat "  " depth ++ "├── " ++ nm])
    ++ printTreeChildren cs 0 cs.length depth

/-- The `for i, child in enumerate(...)` loop of `print_tree_structure`,
carrying the running index and the child count. -/
def printTreeChildren : List TreeNode → Nat → Nat → Nat → List String
  | [], _, _, _ => []
  | c :: rest, i, n, depth =>
    (if i = n - 1 then print_tree_structure c (depth + 1)
     else print_tree_structure c (depth + 1))
    ++ printTreeChildren rest (i + 1) n depth
end

mutual
/-- `print_tree_structure` with the no-op last-child conditional removed:
each child is printed at depth + 1 regardless of its position. -/
def printTreeSimple : TreeNode → Nat → List String
  | .mk nm fid fp ls le cs, depth =>
    (if truthyNat fid then
      [strRepeat "  " depth ++ "├── " ++ nm ++ " [function]"]
      ++ (if truthyStr fp then
            [strRepeat "  " depth ++ "│   📁 " ++ fp.getD ""] else [])
      ++ (if truthyNat ls && truthyNat le then
            [strRepeat "  " depth ++ "│   📍 行 " ++ toString (ls.getD 0) ++ "-"
              ++ toString (le.getD 0)]
          else [])
    else [strRepeat "  " depth ++ "├── " ++ nm])
    ++ printTreeSimpleChildren cs depth

/-- The position-independent child loop of `printTreeSimple`. -/
def printTreeSimpleChildren : List TreeNode → Nat → List String
  | [], _ => []
  | c :: rest, depth =>
    printTreeSimple c (depth + 1) ++ printTreeSimpleChildren rest depth
end

mutual
/-- Embedded from scripts/demo_hierarchical_output.py, lines 43-61
(`convert_function_tree_to_scheme1(node, depth)`): the depth-0 node is
rendered as `name [entry_point]`, any deeper node as `├── name()` under its
depth's indentation, followed by the children at depth + 1 through the same
identical-branch last-child conditional. -/
def convert_function_tree_to_scheme1 : TreeNode → Nat → String
  | .mk nm _ _ _ _ cs, depth =>
    (if depth = 0 then nm ++ " [entry_point]\n"
     else strRepeat "│   " depth ++ "├── " ++ nm ++ "()\n")
    ++ convertFunctionTreeChildren cs 0 cs.length depth

/-- The `for i, child in enumerate(...)` loop of
`convert_function_tree_to_scheme1`. -/
def convertFunctionTreeChildren : List TreeNode → Nat → Nat → Nat → String
  | [], _, _, _ => ""
  | c :: rest, i, n, depth =>
    (if i = n - 1 then convert_function_tree_to_scheme1 c (depth + 1)
     else convert_function_tree_to_scheme1 c (depth + 1))
    ++ convertFunctionTreeChildren rest (i + 1) n depth
end

mutual
/-- `convert_function_tree_to_scheme1` with the no-op last-child conditional
removed. -/
def convertFunctionTreeSimple : TreeNode → Nat → String
  | .mk nm _ _ _ _ cs, depth =>
    (if depth = 0 then nm ++ " [entry_point]\n"
     else strRepeat "│   " depth ++ "├── " ++ nm ++ "()\n")
    ++ convertFunctionTreeSimpleChildren cs depth

/-- The position-independent child loop of `convertFunctionTreeSimple`. -/
def convertFunctionTreeSimpleChildren : List TreeNode → Nat → String
  | [], _ => ""
  | c :: rest, depth =>
    convertFunctionTreeSimple c (depth + 1) ++ convertFunctionTreeSimpleChildren rest depth
end

mutual
/-- Embedded from scripts/demo_hierarchical_output.py, lines 63-85
(`convert_project_tree_to_scheme1(node, depth)`): depth 0 renders the fixed
header, a function node renders `├── name()`, a file or directory node
renders `├── name`, then the children at depth + 1 through the same
identical-branch last-child conditional. -/
def convert_project_tree_to_scheme1 : TreeNode → Nat → String
  | .mk nm fid _ _ _ cs, depth =>
    (if depth = 0 then "Function Call Hierarchy:\n"
     else if truthyNat fid then strRepeat "│   " depth ++ "├── " ++ nm ++ "()\n"
     else strRepeat "│   " depth ++ "├── " ++ nm ++ "\n")
    ++ convertProjectTreeChildren cs 0 cs.length depth

/-- The `for i, child in enumerate(...)` loop of
`convert_project_tree_to_scheme1`. -/
def convertProjectTreeChildren : List TreeNode → Nat → Nat → Nat → String
  | [], _, _, _ => ""
  | c :: rest, i, n, depth =>
    (if i = n - 1 then convert_project_tree_to_scheme1 c (depth + 1)
     else convert_project_tree_to_scheme1 c (depth + 1))
    ++ convertProjectTreeChildren rest (i + 1) n depth
end

mutual
/-- `convert_project_tree_to_scheme1` with the no-op last-child conditional
removed. -/
def convertProjectTreeSimple : TreeNode → Nat → String
  | .mk nm fid _ _ _ cs, depth =>
    (if depth = 0 then "Function Call Hierarchy:\n"
     else if truthyNat fid then strRepeat "│   " depth ++ "├── " ++ nm ++ "()\n"
     else strRepeat "│   " depth ++ "├── " ++ nm ++ "\n")
    ++ convertProjectTreeSimpleChildren cs depth

/-- The position-independent child loop of `convertProjectTreeSimple`. -/
def convertProjectTreeSimpleChildren : List TreeNode → Nat → String
  | [], _ => ""
  | c :: rest, depth =>
    convertProjectTreeSimple c (depth + 1) ++ convertProjectTreeSimpleChildren rest depth
end

mutual
theorem print_tree_structure_eq_simple (t : TreeNode) (depth : Nat) :
    print_tree_structure t depth = printTreeSimple t depth := by
  cases t with
  | mk nm fid fp ls le cs =>
    rw [print_tree_structure, printTreeSimple,
      printTreeChildren_eq_simple cs 0 cs.length depth]

theorem printTreeChildren_eq_simple (cs : List TreeNode) (i n depth : Nat) :
    printTreeChildren cs i n depth = printTreeSimpleChildren cs depth := by
  cases cs with
  | nil => rw [printTreeChildren, printTreeSimpleChildren]
  | cons c rest =>
    rw [printTreeChildren, printTreeSimpleChildren, ite_self,
      print_tree_structure_eq_simple c (depth + 1),
      printTreeChildren_eq_simple rest (i + 1) n depth]
end

mutual
theorem convert_function_tree_eq_simple (t : TreeNode) (depth : Nat) :
    convert_function_tree_to_scheme1 t depth = convertFunctionTreeSimple t depth := by
  cases t with
  | mk nm fid fp ls le cs =>
    rw [convert_function_tree_to_scheme1, convertFunctionTreeSimple,
      convertFunctionTreeChildren_eq_simple cs 0 cs.length depth]

theorem convertFunctionTreeChildren_eq_simple (cs : List TreeNode) (i n depth : Nat) :
    convertFunctionTreeChildren cs i n depth = convertFunctionTreeSimpleChildren cs depth := by
  cases cs with
  | nil => rw [convertFunctionTreeChildren, convertFunctionTreeSimpleChildren]
  | cons c rest =>
    rw [convertFunctionTreeChildren, convertFunctionTreeSimpleChildren, ite_self,
      convert_function_tree_eq_simple c (depth + 1),
      convertFunctionTreeChildren_eq_simple rest (i + 1) n depth]
end

mutual
theorem convert_project_tree_eq_simple (t : TreeNode) (depth : Nat) :
    convert_project_tree_to_scheme1 t depth = convertProjectTreeSimple t depth := by
  cases t with
  | mk nm fid fp ls le cs =>
    rw [convert_project_tree_to_scheme1, convertProjectTreeSimple,
      convertProjectTreeChildren_eq_simple cs 0 cs.length depth]

theorem convertProjectTreeChildren_eq_simple (cs : List TreeNode) (i n depth : Nat) :
    convertProjectTreeChildren cs i n depth = convertProjectTreeSimpleChildren cs depth := by
  cases cs with
  | nil => rw [convertProjectTreeChildren, convertProjectTreeSimpleChildren]
  | cons c rest =>
    rw [convertProjectTreeChildren, convertProjectTreeSimpleChildren, ite_self,
      convert_project_tree_eq_simple c (depth + 1),
      convertProjectTreeChildren_eq_simple rest (i + 1) n depth]
end

/-- C7: in a function-rooted tree rendering, the root is labeled as an entry
point distinct from ordinary call nodes: `convert_function_tree_to_scheme1`
renders the depth-0 node as its name followed by `[entry_point]`, while
every node at positive depth is rendered as `├── name()` under its depth's
indentation. -/
theorem convert_function_tree_root_label (t : TreeNode) (d : Nat) :
    (∃ rest, convert_function_tree_to_scheme1 t 0 =
      t.name ++ " [entry_point]\n" ++ rest) ∧
    (0 < d → ∃ rest, convert_function_tree_to_scheme1 t d =
      strRepeat "│   " d ++ "├── " ++ t.name ++ "()\n" ++ rest) := by
  constructor
  · cases t with
    | mk nm fid fp ls le cs =>
      refine ⟨convertFunctionTreeChildren cs 0 cs.length 0, ?_⟩
      rw [convert_function_tree_to_scheme1, if_pos rfl, TreeNode.name]
  · intro hd
    cases t with
    | mk nm fid fp ls le cs =>
      refine ⟨convertFunctionTreeChildren cs 0 cs.length d, ?_⟩
      rw [convert_function_tree_to_scheme1, if_neg (Nat.pos_iff_ne_zero.mp hd),
        TreeNode.name]

theorem convert_function_tree_root_label_witness :
    (∃ rest, convert_function_tree_to_scheme1
        (TreeNode.mk "main" none none none none []) 0 =
      (TreeNode.mk "main" none none none none []).name ++ " [entry_point]\n" ++ rest) ∧
    (∃ rest, convert_function_tree_to_scheme1
        (TreeNode.mk "main" none none none none []) 1 =
      strRepeat "│   " 1 ++ "├── "
        ++ (TreeNode.mk "main" none none none none []).name ++ "()\n" ++ rest) :=
  ⟨(convert_function_tree_root_label (TreeNode.mk "main" none none none none []) 1).1,
   (convert_function_tree_root_label (TreeNode.mk "main" none none none none []) 1).2
     (by decide)⟩

/-- C9: in `print_tree_structure`, `convert_function_tree_to_scheme1` and
`convert_project_tree_to_scheme1` the two branches of the last-child
conditional are identical, so each function is extensionally equal to the
simplified version with the conditional removed: a node's rendered output
depends only on the node and its depth, never on its position among its
siblings. -/
theorem renderers_position_independent :
    (∀ (t : TreeNode) (d : Nat), print_tree_structure t d = printTreeSimple t d) ∧
    (∀ (t : TreeNode) (d : Nat),
      convert_function_tree_to_scheme1 t d = convertFunctionTreeSimple t d) ∧
    (∀ (t : TreeNode) (d : Nat),
      convert_project_tree_to_scheme1 t d = convertProjectTreeSimple t d) :=
  ⟨print_tree_structure_eq_simple, convert_function_tree_eq_simple,
   convert_project_tree_eq_simple⟩

/-- Outcome of the `requests.post` call inside `get_hierarchical_graph`
(scripts/demo_hierarchical_output.py, lines 9-32): either a response with a
status code whose parsed JSON body carries a `data` field of type `α`, or a
raised `requests.exceptions.RequestException`. -/
inductive HttpOutcome (α : Type) where
  | response (status_code : Nat) (data : α)
  | requestException (msg : String)

/-- Embedded from scripts/demo_hierarchical_output.py, lines 9-32:
`get_hierarchical_graph` returns `response.json()['data']` when
`response.status_code == 200`, and `None` both on any other status code and
when the request raises a `RequestException`; being a total Lean function
into `Option`, the model also witnesses that neither of those cases raises.
The error messages it prints are not modelled. -/
def get_hierarchical_graph {α : Type} : HttpOutcome α → Option α
  | .response code d => if code = 200 then some d else none
  | .requestException _ => none

/-- C10: `get_hierarchical_graph` returns the `data` field of the parsed
JSON response exactly when the HTTP status code is 200, and returns `None`
in every other case, both on a non-200 status code and on a raised
`RequestException`, without itself raising in those cases. -/
theorem get_hierarchical_graph_data_iff {α : Type} (code : Nat) (d : α) (msg : String) :
    (get_hierarchical_graph (HttpOutcome.response code d) = some d ↔ code = 200) ∧
    (code ≠ 200 → get_hierarchical_graph (HttpOutcome.response code d) = none) ∧
    get_hierarchical_graph (HttpOutcome.requestException msg : HttpOutcome α) = none := by
  by_cases hc : code = 200
  · subst hc
    exact ⟨⟨fun _ => rfl, fun _ => by rw [get_hierarchical_graph, if_pos rfl]⟩,
      fun h => absurd rfl h, rfl⟩
  · refine ⟨⟨fun habs => ?_, fun h => absurd h hc⟩,
      fun _ => by rw [get_hierarchical_graph, if_neg hc], rfl⟩
    rw [get_hierarchical_graph, if_neg hc] at habs
    exact absurd habs (by simp)

theorem get_hierarchical_graph_data_iff_witness :
    (get_hierarchical_graph (HttpOutcome.response 404 (7 : Nat)) = some 7 ↔ 404 = 200) ∧
    get_hierarchical_graph (HttpOutcome.response 404 (7 : Nat)) = none ∧
    get_hierarchical_graph (HttpOutcome.requestException "connection refused"
      : HttpOutcome Nat) = none :=
  ⟨(get_hierarchical_graph_data_iff 404 (7 : Nat) "connection refused").1,
   (get_hierarchical_graph_data_iff 404 (7 : Nat) "connection refused").2.1 (by decide),
   (get_hierarchical_graph_data_iff 404 (7 : Nat) "connection refused").2.2⟩

end Scripts
